import Mathlib

/-!
Verification development for the solana-analyzer-bot repository.

The source under scrutiny is `src/app.py`, a Flask application with three
Jinja2 formatting filters (`format_price`, `format_market_cap`, `format_pnl`),
a Birdeye market-data service, an `AIService.analyze_wallet` operation that
calls a generative reasoning model and parses its JSON output, and the
`wallet_analyzer` POST route orchestrating them.

Strings are embedded as `List Char`; Python numeric values are embedded as
exact rationals (`Rat`); fallible Python code is embedded with `Option` /
`Except`.  The natural-language specification additionally describes a token
scoring pipeline (security / activity / trend / hype subscores aggregated
into a total score) that is not present in the extracted source; that part
is modelled from the spec and clearly marked as such below.
-/

/-- Convert a string literal to the `List Char` representation used throughout. -/
def chars (s : String) : List Char := s.data

/-- The left-brace character (written by code to keep braces out of literals). -/
def lbraceC : Char := Char.ofNat 123

/-- The right-brace character. -/
def rbraceC : Char := Char.ofNat 125

/-- The backtick character. -/
def btickC : Char := Char.ofNat 96

/-- The double-quote character. -/
def dquoteC : Char := Char.ofNat 34

/-- The backslash character. -/
def bslashC : Char := Char.ofNat 92

/-- Characters stripped by Python `str.strip()` (the ASCII whitespace set;
Python also strips some unicode spaces, which do not occur in this program). -/
def isPySpace (c : Char) : Bool :=
  c = ' ' || c = '\t' || c = '\n' || c = '\r' || c = Char.ofNat 11 || c = Char.ofNat 12

/-- Python `str.strip()`: remove leading and trailing whitespace. -/
def pyStrip (l : List Char) : List Char :=
  ((l.dropWhile isPySpace).reverse.dropWhile isPySpace).reverse

/-- Worker for `replaceAll` (Python `str.replace`): `skip` counts characters
still to be consumed after a pattern hit, `fuel` is one unit per character so
the recursion is structural and kernel-reducible. -/
def raF (pat rep : List Char) : Nat → Nat → List Char → List Char
  | _, 0, l => l
  | 0, fuel + 1, l =>
    match l with
    | [] => []
    | c :: cs =>
      if pat ≠ [] ∧ pat.isPrefixOf (c :: cs) then
        rep ++ raF pat rep (pat.length - 1) fuel cs
      else
        c :: raF pat rep 0 fuel cs
  | k + 1, fuel + 1, l =>
    match l with
    | [] => []
    | _ :: cs => raF pat rep k fuel cs

/-- Python `str.replace(pat, rep)`: replace every non-overlapping occurrence,
scanning left to right. -/
def replaceAll (pat rep l : List Char) : List Char :=
  raF pat rep 0 l.length l

/-- The first fence marker removed by `AIService.analyze_wallet`. -/
def fenceJsonPat : List Char := btickC :: btickC :: btickC :: ['j', 's', 'o', 'n']

/-- The second fence marker removed by `AIService.analyze_wallet`. -/
def fencePat : List Char := [btickC, btickC, btickC]

/-- `response.text.strip().replace("```json", "").replace("```", "")` from
`AIService.analyze_wallet` (src/app.py line 136). -/
def cleanedResponse (text : List Char) : List Char :=
  replaceAll fencePat [] (replaceAll fenceJsonPat [] (pyStrip text))

example : pyStrip (chars "  ab c  ") = chars "ab c" := by decide

example : replaceAll (chars "ab") [] (chars "xabyab") = chars "xy" := by decide

example : cleanedResponse (btickC :: btickC :: btickC :: chars "json" ++ chars "x" ++ [btickC, btickC, btickC]) = chars "x" := by decide

/-!  A shallow model of Python JSON values (`json.loads` / `json.dumps`).
Non-integer numeric literals are kept as their source text (`jfrac`), which
is all the program ever does with them (re-serialize or hand them to the
template); exponent literals, `Infinity`/`NaN` and `\u` escapes are outside
the modelled subset (none of the claims exercises them). -/

inductive Json where
  | jnull : Json
  | jbool (b : Bool) : Json
  | jint (n : Int) : Json
  | jfrac (digits : List Char) : Json
  | jstr (s : List Char) : Json
  | jarr (elems : List Json) : Json
  | jobj (fields : List (List Char × Json)) : Json

/-- JSON whitespace accepted between tokens by `json.loads`. -/
def isJWs (c : Char) : Bool := c = ' ' || c = '\t' || c = '\n' || c = '\r'

/-- Skip JSON whitespace. -/
def skipWs (l : List Char) : List Char := l.dropWhile isJWs

/-- Map a JSON escape character to the character it denotes. -/
def escChar? (c : Char) : Option Char :=
  if c = dquoteC then some dquoteC
  else if c = bslashC then some bslashC
  else if c = '/' then some '/'
  else if c = 'n' then some '\n'
  else if c = 't' then some '\t'
  else if c = 'r' then some '\r'
  else if c = 'b' then some (Char.ofNat 8)
  else if c = 'f' then some (Char.ofNat 12)
  else none

/-- Parse the body of a JSON string (after the opening quote); returns the
decoded characters and the rest of the input.  `fuel` is one unit per
consumed character. -/
def parseStrBody : Nat → List Char → Option (List Char × List Char)
  | 0, _ => none
  | _ + 1, [] => none
  | fuel + 1, c :: cs =>
    if c = dquoteC then some ([], cs)
    else if c = bslashC then
      match cs with
      | [] => none
      | e :: cs2 =>
        match escChar? e with
        | none => none
        | some d =>
          match parseStrBody fuel cs2 with
          | none => none
          | some (s, rest) => some (d :: s, rest)
    else
      match parseStrBody fuel cs with
      | none => none
      | some (s, rest) => some (c :: s, rest)

/-- Numeric value of a list of decimal digits. -/
def digitsVal (l : List Char) : Nat :=
  l.foldl (fun acc c => 10 * acc + (c.toNat - 48)) 0

/-- Parse a JSON number: optional minus, integer digits, optional fraction.
A fractional literal is kept as its source text in `jfrac`. -/
def parseNum (l : List Char) : Option (Json × List Char) :=
  let (neg, l1) := match l with
                   | '-' :: r => (true, r)
                   | _ => (false, l)
  let ip := l1.takeWhile Char.isDigit
  let r1 := l1.dropWhile Char.isDigit
  if ip = [] then none
  else
    match r1 with
    | '.' :: r2 =>
      let fp := r2.takeWhile Char.isDigit
      let r3 := r2.dropWhile Char.isDigit
      if fp = [] then none
      else some (.jfrac ((if neg then ['-'] else []) ++ ip ++ '.' :: fp), r3)
    | _ =>
      some (.jint (if neg then -(digitsVal ip : Int) else (digitsVal ip : Int)), r1)

mutual

/-- Recursive-descent parser for a JSON value; `fuel` bounds the recursion
depth (one unit per nested construct), keeping the recursion structural. -/
def parseVal : Nat → List Char → Option (Json × List Char)
  | 0, _ => none
  | fuel + 1, l =>
    match skipWs l with
    | 'n' :: 'u' :: 'l' :: 'l' :: rest => some (.jnull, rest)
    | 't' :: 'r' :: 'u' :: 'e' :: rest => some (.jbool true, rest)
    | 'f' :: 'a' :: 'l' :: 's' :: 'e' :: rest => some (.jbool false, rest)
    | c :: cs =>
      if c = dquoteC then
        match parseStrBody (cs.length + 1) cs with
        | none => none
        | some (s, rest) => some (.jstr s, rest)
      else if c = '[' then
        match skipWs cs with
        | ']' :: rest => some (.jarr [], rest)
        | cs2 => parseArrItems fuel cs2
      else if c = lbraceC then
        match skipWs cs with
        | r :: rest => if r = rbraceC then some (.jobj [], rest) else parseObjItems fuel (r :: rest)
        | [] => none
      else parseNum (c :: cs)
    | [] => none

/-- Parse the elements of a non-empty JSON array (after the opening bracket). -/
def parseArrItems : Nat → List Char → Option (Json × List Char)
  | 0, _ => none
  | fuel + 1, l =>
    match parseVal fuel l with
    | none => none
    | some (v, rest) =>
      match skipWs rest with
      | ',' :: rest2 =>
        match parseArrItems fuel rest2 with
        | some (.jarr vs, rest3) => some (.jarr (v :: vs), rest3)
        | _ => none
      | ']' :: rest2 => some (.jarr [v], rest2)
      | _ => none

/-- Parse the members of a non-empty JSON object (after the opening brace). -/
def parseObjItems : Nat → List Char → Option (Json × List Char)
  | 0, _ => none
  | fuel + 1, l =>
    match skipWs l with
    | c :: cs =>
      if c = dquoteC then
        match parseStrBody (cs.length + 1) cs with
        | none => none
        | some (k, rest) =>
          match skipWs rest with
          | ':' :: rest2 =>
            match parseVal fuel rest2 with
            | none => none
            | some (v, rest3) =>
              match skipWs rest3 with
              | ',' :: rest4 =>
                match parseObjItems fuel rest4 with
                | some (.jobj fs, rest5) => some (.jobj ((k, v) :: fs), rest5)
                | _ => none
              | r :: rest4 => if r = rbraceC then some (.jobj [(k, v)], rest4) else none
              | [] => none
          | _ => none
      else none
    | [] => none

end

/-- `json.loads`: parse the whole input as one JSON document (leading and
trailing whitespace tolerated, anything else trailing is an error). -/
def jsonLoads? (l : List Char) : Option Json :=
  match parseVal (l.length + 1) l with
  | some (j, rest) => if skipWs rest = [] then some j else none
  | none => none

example : jsonLoads? (chars " 12 ") = some (.jint 12) := by rfl

example : jsonLoads? (lbraceC :: chars "\"a\": [1, -2], \"b\": null" ++ [rbraceC]) =
    some (.jobj [(chars "a", .jarr [.jint 1, .jint (-2)]), (chars "b", .jnull)]) := by rfl

example : jsonLoads? (chars "Voici: " ++ lbraceC :: [rbraceC]) = none := by rfl

example : jsonLoads? (chars "true x") = none := by rfl

/-- Escape one character for `json.dumps` output (quote, backslash and the
common control characters; `ensure_ascii` escaping of non-ASCII characters is
outside the modelled subset and never inspected by the program). -/
def escOut (c : Char) : List Char :=
  if c = dquoteC then [bslashC, dquoteC]
  else if c = bslashC then [bslashC, bslashC]
  else if c = '\n' then [bslashC, 'n']
  else if c = '\t' then [bslashC, 't']
  else if c = '\r' then [bslashC, 'r']
  else [c]

/-- Decimal rendering of an integer. -/
def intChars (n : Int) : List Char :=
  (if n < 0 then ['-'] else []) ++ Nat.toDigits 10 n.natAbs

mutual

/-- `json.dumps` with its default separators (", " between items, ": " after
keys). -/
def dumps : Json → List Char
  | .jnull => chars "null"
  | .jbool true => chars "true"
  | .jbool false => chars "false"
  | .jint n => intChars n
  | .jfrac ds => ds
  | .jstr s => dquoteC :: s.foldr (fun c acc => escOut c ++ acc) [dquoteC]
  | .jarr xs => '[' :: dumpsList xs ++ [']']
  | .jobj fs => lbraceC :: dumpsFields fs ++ [rbraceC]

/-- Serialize array elements, separated by ", ". -/
def dumpsList : List Json → List Char
  | [] => []
  | [x] => dumps x
  | x :: y :: rest => dumps x ++ ',' :: ' ' :: dumpsList (y :: rest)

/-- Serialize object members, separated by ", ", keys followed by ": ". -/
def dumpsFields : List (List Char × Json) → List Char
  | [] => []
  | [(k, v)] => dumps (.jstr k) ++ ':' :: ' ' :: dumps v
  | (k, v) :: f :: rest =>
    dumps (.jstr k) ++ ':' :: ' ' :: dumps v ++ ',' :: ' ' :: dumpsFields (f :: rest)

end

/-- Lookup of a key in the fields of a parsed JSON object (Python `dict.get`). -/
def lookupField (fs : List (List Char × Json)) (k : List Char) : Option Json :=
  match fs with
  | [] => none
  | (k', v) :: rest => if k' = k then some v else lookupField rest k

/-- Python `tx.get(key)` on a decoded JSON value: succeeds only when the
value is a dict, the way the source's attribute access does (an
`AttributeError` — modelled as `Except.error` — escapes otherwise). -/
def txGet (tx : Json) (k : List Char) : Except (List Char) (Option Json) :=
  match tx with
  | .jobj fs => .ok (lookupField fs k)
  | _ => .error (chars "AttributeError")

/-- The outcome of `model.generate_content(prompt).text`: either the raw
response text or an exception message. -/
inductive GenOutcome where
  | ok (text : List Char) : GenOutcome
  | exn (msg : List Char) : GenOutcome

/-- A (mockable) reasoning-model handle: a function from the prompt to the
outcome of the generation call. -/
def GenModel : Type := List Char → GenOutcome

/-- The fixed dictionary returned by `analyze_wallet` when the model handle
is unconfigured (src/app.py line 115). -/
def configErrDict : Json :=
  .jobj [(chars "error", .jstr (chars "Le service IA n\x27est pas configuré.")),
         (chars "summary", .jstr (chars "Veuillez configurer la clé API Gemini."))]

/-- The error dictionary returned by `analyze_wallet`'s `except` clause
(src/app.py line 140), with `summary = str(e)`. -/
def aiErrDict (e : List Char) : Json :=
  .jobj [(chars "error", .jstr (chars "L\x27analyse par l\x27IA a échoué.")),
         (chars "summary", .jstr e)]

/-- The text of the `json.JSONDecodeError` raised by `json.loads`; its exact
wording depends on the failure position and is modelled as a fixed message
(no claim constrains its content). -/
def jsonErrText : List Char := chars "Expecting value"

/-- One entry of `simplified_txs` (src/app.py lines 117-120):
`[{"type": tx.get("tx_type"), "token": tx.get("token", {}).get("symbol"),
"amount_usd": tx.get("amount_usd")} for tx in transactions]`.  The lookups
may raise (and in the source this comprehension sits outside the `try`). -/
def simplifyTx (tx : Json) : Except (List Char) Json := do
  let t ← txGet tx (chars "tx_type")
  let tokenVal := (← txGet tx (chars "token")).getD (.jobj [])
  let symbol ← txGet tokenVal (chars "symbol")
  let amount ← txGet tx (chars "amount_usd")
  return .jobj [(chars "type", t.getD .jnull),
                (chars "token", symbol.getD .jnull),
                (chars "amount_usd", amount.getD .jnull)]

/-- The f-string prompt of `AIService.analyze_wallet` (src/app.py lines
122-133), as prefix and suffix around the serialized transactions. -/
def promptText (txt : List Char) : List Char :=
  chars "\n        Analyse la liste des 25 dernières transactions d\x27un wallet Solana : " ++
  txt ++
  chars ".\n        En te basant sur ces données limitées, agis comme un analyste crypto expert.\n        Calcule ou estime les métriques suivantes :\n        1. \"winrate\": Le pourcentage de trades qui semblent profitables.\n        2. \"pnl_usd\": Une estimation très approximative du Profit & Loss en USD.\n        3. \"top_tokens\": Une liste des 3 tokens les plus fréquemment échangés.\n        4. \"behavior\": Une brève description du comportement (ex: \"Scalper\", \"Swing Trader\", \"Degen\").\n        5. \"copy_verdict\": Un verdict clair : \"Très Recommandé\", \"Potentiellement Rentable\", \"Prudence Requise\", \"Non Recommandé\".\n        6. \"summary\": Un résumé d\x27une phrase expliquant ton verdict.\n        Retourne ta réponse UNIQUEMENT en format JSON valide.\n        "

/-- `AIService.analyze_wallet` (src/app.py lines 111-140).  The model handle
is `None` or a (mockable) generation function; the transaction list is the
decoded Birdeye payload.  `Except.error` models the `AttributeError` that
the simplification comprehension can raise outside the `try` block; every
failure inside the `try` (generation exception, JSON decode failure) is
caught and turned into `aiErrDict`. -/
def analyze_wallet (m : Option GenModel) (transactions : List Json) :
    Except (List Char) Json :=
  match m with
  | none => .ok configErrDict
  | some mdl =>
    match transactions.mapM simplifyTx with
    | .error e => .error e
    | .ok simples =>
      match mdl (promptText (dumps (.jarr simples))) with
      | .exn e => .ok (aiErrDict e)
      | .ok text =>
        match jsonLoads? (cleanedResponse text) with
        | some j => .ok j
        | none => .ok (aiErrDict jsonErrText)

/-- External services invoked by the `wallet_analyzer` route. -/
inductive ExtCall where
  | birdeye (addr : List Char) : ExtCall
  | aiService : ExtCall

/-- The pages the `wallet_analyzer` route can render (the Flask 500 handler
included, for the `AttributeError` path). -/
inductive Rendered where
  | walletAnalyzerPage (error : Option (List Char)) : Rendered
  | walletResultsPage (analysis : Json) (walletAddress : List Char)
      (transactions : List Json) : Rendered
  | serverError500 : Rendered

/-- Truthiness of the `error` string returned by
`BirdeyeService.get_wallet_transactions` (`None` and `""` are falsy). -/
def errTruthy : Option (List Char) → Bool
  | none => false
  | some s => !s.isEmpty

/-- `f"Impossible de récupérer les transactions : {error or 'Aucune transaction trouvée.'}"`. -/
def fetchErrMsg (error : Option (List Char)) : List Char :=
  chars "Impossible de récupérer les transactions : " ++
  (if errTruthy error then error.getD [] else chars "Aucune transaction trouvée.")

/-- HTTP method of the request. -/
inductive Method where
  | get : Method
  | post : Method

/-- The `wallet_analyzer` route (src/app.py lines 163-181).  `form_wallet`
is `request.form.get("wallet", "")` before stripping; `fetch` is the
(mockable) `BirdeyeService.get_wallet_transactions` collaborator; `m` is the
global reasoning-model handle.  Returns the rendered page together with the
list of service invocations performed. -/
def wallet_analyzer (method : Method) (form_wallet : Option (List Char))
    (fetch : List Char → List Json × Option (List Char)) (m : Option GenModel) :
    Rendered × List ExtCall :=
  match method with
  | .get => (.walletAnalyzerPage none, [])
  | .post =>
    let wallet_address := pyStrip (form_wallet.getD [])
    if wallet_address = [] then
      (.walletAnalyzerPage (some (chars "L\x27adresse du wallet est requise.")), [])
    else
      let (transactions, error) := fetch wallet_address
      if errTruthy error || transactions.isEmpty then
        (.walletAnalyzerPage (some (fetchErrMsg error)), [.birdeye wallet_address])
      else
        match analyze_wallet m transactions with
        | .ok d => (.walletResultsPage d wallet_address transactions,
                    [.birdeye wallet_address, .aiService])
        | .error _ => (.serverError500, [.birdeye wallet_address, .aiService])

example : analyze_wallet none [] = .ok configErrDict := by rfl

example : analyze_wallet (some fun _ => .ok (chars "pas de json")) [] =
    .ok (aiErrDict jsonErrText) := by rfl

/-!  The Jinja2 template filters `format_price`, `format_market_cap` and
`format_pnl` (src/app.py lines 32-57).  Numeric values are modelled as exact
rationals; Python `float(...)` coercion is modelled by `pyFloat?`, with
`none` standing for the `ValueError`/`TypeError` that the filters catch. -/

/-- A Python value handed to a template filter. -/
inductive PyVal where
  | vNone : PyVal
  | vBool (b : Bool) : PyVal
  | vNum (q : Rat) : PyVal
  | vStr (s : List Char) : PyVal
  | vList (xs : List PyVal) : PyVal

/-- Python `float(str)` on the modelled subset: strip whitespace, optional
sign, decimal digits with an optional fractional part (exponent notation,
`inf`/`nan` and digit underscores are outside the modelled subset; none of
the claims exercises them).  The value `±(ip + fp/10^k)` is built with
`mkRat` so that it evaluates inside the kernel. -/
def pyParseFloat? (s : List Char) : Option Rat :=
  let t := pyStrip s
  let (sgn, t2) : Int × List Char :=
    match t with
    | '+' :: r => (1, r)
    | '-' :: r => (-1, r)
    | _ => (1, t)
  let ip := t2.takeWhile Char.isDigit
  let r1 := t2.dropWhile Char.isDigit
  match r1 with
  | [] => if ip = [] then none else some (mkRat (sgn * (digitsVal ip : Int)) 1)
  | '.' :: r2 =>
    let fp := r2.takeWhile Char.isDigit
    let r3 := r2.dropWhile Char.isDigit
    if r3 = [] ∧ (ip ≠ [] ∨ fp ≠ []) then
      some (mkRat (sgn * ((digitsVal ip : Int) * (10 : Int) ^ fp.length + (digitsVal fp : Int)))
                  (10 ^ fp.length))
    else none
  | _ => none

/-- Python `float(value)` coercion: numbers pass through, booleans coerce to
0/1, strings are parsed, everything else raises (`none`). -/
def pyFloat? : PyVal → Option Rat
  | .vNum q => some q
  | .vBool b => some (if b then 1 else 0)
  | .vStr s => pyParseFloat? s
  | .vNone => none
  | .vList _ => none

/-- Round `(num/den) * 10^p` to the nearest integer, ties to even (the
rounding used by Python's fixed-point string formatting); `den > 0`.
Computed with integer floor division so that it evaluates in the kernel. -/
def rndNum (num den : Int) (p : Nat) : Int :=
  let n := num * (10 : Int) ^ p
  let f := n.fdiv den
  let r := n.fmod den
  if 2 * r < den then f
  else if den < 2 * r then f + 1
  else if f % 2 = 0 then f else f + 1

/-- Insert thousands separators into a least-significant-first digit list. -/
def group3 : List Char → List Char
  | d1 :: d2 :: d3 :: d4 :: rest => d1 :: d2 :: d3 :: ',' :: group3 (d4 :: rest)
  | l => l

/-- Decimal digits of a natural number, with thousands separators. -/
def natGrouped (n : Nat) : List Char :=
  (group3 (Nat.toDigits 10 n).reverse).reverse

/-- Left-pad the decimal digits of `m` with zeros to width `p`. -/
def padZeros (p : Nat) (m : Nat) : List Char :=
  let ds := Nat.toDigits 10 m
  List.replicate (p - ds.length) '0' ++ ds

/-- Python `f"{q/div:.pf}"` / `f"{q/div:,.pf}"`: fixed-point rendering of
`q / div` with `p` decimals, optionally with thousands separators in the
integer part (`div = 1` when the source formats the value itself).  The
model is over exact rationals, so it has no negative zero and no binary
double-rounding artifacts. -/
def fmtFixed (q : Rat) (div : Nat) (p : Nat) (grouped : Bool) : List Char :=
  let n := rndNum q.num ((q.den : Int) * (div : Int)) p
  let a := n.natAbs
  let base := 10 ^ p
  (if n < 0 then ['-'] else []) ++
  (if grouped then natGrouped (a / base) else Nat.toDigits 10 (a / base)) ++
  (if p = 0 then [] else '.' :: padZeros p (a % base))

/-- Python `str.rstrip(c)`: remove trailing copies of `c`. -/
def rstripChar (c : Char) (l : List Char) : List Char :=
  (l.reverse.dropWhile (· = c)).reverse

/-- `format_price` (src/app.py lines 32-38).  The Python literal `0.00001`
is modelled as the rational 1/100000. -/
def format_price (v : PyVal) : List Char :=
  match pyFloat? v with
  | none => chars "N/A"
  | some q =>
    if q < mkRat 1 100000 then
      rstripChar '.' (rstripChar '0' ('$' :: fmtFixed q 1 10 true))
    else
      rstripChar '.' (rstripChar '0' ('$' :: fmtFixed q 1 6 true))

/-- `format_market_cap` (src/app.py lines 40-49).  `not value or value == 0`
collapses to `q = 0` over the rational model (floats' `NaN`, which is truthy
and incomparable, does not exist here). -/
def format_market_cap (v : PyVal) : List Char :=
  match pyFloat? v with
  | none => chars "N/A"
  | some q =>
    if q = 0 then chars "N/A"
    else if q ≥ 1000000000 then '$' :: fmtFixed q 1000000000 2 false ++ ['B']
    else if q ≥ 1000000 then '$' :: fmtFixed q 1000000 2 false ++ ['M']
    else if q ≥ 1000 then '$' :: fmtFixed q 1000 2 false ++ ['K']
    else '$' :: fmtFixed q 1 2 true

/-- `format_pnl` (src/app.py lines 51-57). -/
def format_pnl (v : PyVal) : List Char :=
  match pyFloat? v with
  | none => chars "N/A"
  | some q =>
    (if q > 0 then ['+'] else []) ++ '$' :: fmtFixed q 1 2 true

example : format_market_cap (.vNum 2500000000) = chars "$2.50B" := by decide
example : format_market_cap (.vNum 0) = chars "N/A" := by decide
example : format_market_cap (.vStr (chars "12.5")) = chars "$12.50" := by decide
example : format_market_cap (.vStr (chars "abc")) = chars "N/A" := by decide
example : format_price (.vNum (mkRat 1 200000)) = chars "$0.000005" := by decide
example : format_pnl (.vNum (-1234)) = chars "$-1,234.00" := by decide
example : format_pnl (.vNum 5) = chars "+$5.00" := by decide

/-!  The scoring-and-verdict pipeline described by the specification
(§§3-4.5, 8).  This part of the repository is not present in the extracted
source (src/app.py holds a wallet-analyzer variant without subscores), so it
is modelled from the spec's words, as marked on each definition. -/

/-- Modelled from the spec: the spec's description of the hype-assessor
parsing step — "locate the first `\x7b` and last matching `\x7d` in the raw
response" — kept separate from the source's cleaning step so the two
mechanisms can be compared. -/
def specExtractBraces (l : List Char) : Option (List Char) :=
  match l.findIdx? (· = lbraceC), l.reverse.findIdx? (· = rbraceC) with
  | some i, some k =>
    let j := l.length - 1 - k
    if i ≤ j then some ((l.drop i).take (j + 1 - i)) else none
  | _, _ => none

example : specExtractBraces (chars "a " ++ lbraceC :: 'x' :: [rbraceC, '!']) =
    some (lbraceC :: 'x' :: [rbraceC]) := by decide

/-- Modelled from the spec (§3): the canonical `TokenSnapshot`; absent
numeric fields are already resolved to their zero/neutral defaults. -/
structure TokenSnapshot where
  address : List Char
  name : List Char
  symbol : List Char
  price : Rat
  marketCap : Rat
  volume24h : Rat
  priceChange1h : Rat
  priceChange6h : Rat
  priceChange24h : Rat
  buyCount1h : Nat
  sellCount1h : Nat

/-- Modelled from the spec (§3): the verdict enumeration of `HypeAssessment`. -/
inductive Verdict where
  | BUY_NOW | POTENTIAL_BUY | HOLD | WAIT | HIGH_RISK | ERROR
deriving DecidableEq

/-- Modelled from the spec (§3): the `HypeAssessment` record. -/
structure HypeAssessment where
  hypeScore : Nat
  verdict : Verdict
  probability : Nat
  summary : List Char

/-- Modelled from the spec (§4.4): the fixed fallback assessment. -/
def fallbackAssessment : HypeAssessment :=
  { hypeScore := 0, verdict := .ERROR, probability := 0,
    summary := chars "analysis failed" }

/-- Modelled from the spec (§4.4): decode a verdict string of the output
contract. -/
def verdictOfString? (s : List Char) : Option Verdict :=
  if s = chars "BUY_NOW" then some .BUY_NOW
  else if s = chars "POTENTIAL_BUY" then some .POTENTIAL_BUY
  else if s = chars "HOLD" then some .HOLD
  else if s = chars "WAIT" then some .WAIT
  else if s = chars "HIGH_RISK" then some .HIGH_RISK
  else if s = chars "ERROR" then some .ERROR
  else none

/-- Modelled from the spec (§4.4): validate the strict output contract —
exactly the keys `hype_score` (0-100 integer), `final_verdict` (enumerated
string), `probability` (0-100 integer), `summary` (string); anything missing
or malformed yields `none`. -/
def decodeContract (j : Json) : Option HypeAssessment :=
  match j with
  | .jobj fields =>
    match lookupField fields (chars "hype_score"),
          lookupField fields (chars "final_verdict"),
          lookupField fields (chars "probability"),
          lookupField fields (chars "summary") with
    | some (.jint h), some (.jstr v), some (.jint p), some (.jstr s) =>
      match verdictOfString? v with
      | some verdict =>
        if 0 ≤ h ∧ h ≤ 100 ∧ 0 ≤ p ∧ p ≤ 100 then
          some { hypeScore := h.toNat, verdict := verdict,
                 probability := p.toNat, summary := s }
        else none
      | none => none
    | _, _, _, _ => none
  | _ => none

/-- Modelled from the spec (§4.4): the hype assessor's parse-with-fallback —
extract the brace-delimited object from the raw collaborator response, parse
it, validate the contract, and fall back to `fallbackAssessment` on any
failure, never raising. -/
def specHypeAssess (raw : List Char) : HypeAssessment :=
  match (specExtractBraces raw).bind jsonLoads? with
  | some j => (decodeContract j).getD fallbackAssessment
  | none => fallbackAssessment

/-- Modelled from the spec (§4.2): the finding-specific penalties (10-20
points each); the "Mutable Metadata" penalty of 10 is fixed by the §8
end-to-end scenario, the other two are representative constants in the
spec's 10-20 range. -/
def findingPenalty (f : List Char) : Int :=
  if f = chars "Mutable Metadata" then 10
  else if f = chars "Mint Authority Enabled" then 20
  else if f = chars "High Concentration of Holders" then 15
  else 0

/-- Modelled from the spec (§4.2): security subscore — start from the cap
(40), subtract the penalty of each finding, floor at 0; an absent report
scores 0 (conservative default). -/
def specSecuritySubscore : Option (List (List Char)) → Int
  | none => 0
  | some findings => max 0 (40 - (findings.map findingPenalty).sum)

/-- Modelled from the spec (§4.3): the volume-spike condition; the spec
leaves the exact ratio unspecified, the constant here is consistent with the
§8 scenario (volume24h=80000 against marketCap=500000 triggers it). -/
def volumeSpike (s : TokenSnapshot) : Prop :=
  0 < s.volume24h ∧ s.volume24h * 10 ≥ s.marketCap

instance (s : TokenSnapshot) : Decidable (volumeSpike s) := by
  unfold volumeSpike; infer_instance

/-- Modelled from the spec (§4.3): activity subscore — fixed partial credits
for the volume spike and for buys exceeding sells, summed and capped at 30. -/
def specActivitySubscore (s : TokenSnapshot) : Int :=
  min 30 ((if volumeSpike s then 15 else 0) +
          (if s.buyCount1h > s.sellCount1h then 15 else 0))

/-- Modelled from the spec (§4.3): trend subscore — the fixed credit of 10
only when the medium-window change is positive AND the short-window change
has not fallen below the -20% crash threshold. -/
def specTrendSubscore (s : TokenSnapshot) : Int :=
  if 0 < s.priceChange6h ∧ (-20 : Rat) ≤ s.priceChange1h then 10 else 0

/-- Modelled from the spec (§4.4): the hype contribution
`round(hype_score * 0.20)` (ties cannot occur: `h/5` never has fractional
part 1/2), rescaling the 0-100 hype score onto the 20-point cap. -/
def specHypeContribution (h : Nat) : Int :=
  ((2 * h + 5) / 10 : Nat)

/-- Modelled from the spec (§4.5): derive a verdict from the total score via
the fixed thresholds. -/
def verdictOfScore (t : Int) : Verdict :=
  if 70 ≤ t then .BUY_NOW
  else if 40 ≤ t then .POTENTIAL_BUY
  else if 20 ≤ t then .WAIT
  else .HIGH_RISK

/-- Modelled from the spec (§3): the terminal `AnalysisResult`. -/
structure AnalysisResult where
  tokenAddress : List Char
  snapshot : TokenSnapshot
  subSecurity : Int
  subActivity : Int
  subTrend : Int
  subHype : Int
  hype : HypeAssessment
  totalScore : Int
  verdict : Verdict

/-- Modelled from the spec (§§4.2-4.5): the pipeline — evaluate the three
numeric subscores, assess hype from the raw collaborator response, aggregate
`totalScore` as the exact sum, and prefer the AI verdict unless it is
`ERROR`. -/
def specAnalyze (snap : TokenSnapshot) (report : Option (List (List Char)))
    (rawAI : List Char) : AnalysisResult :=
  let sec := specSecuritySubscore report
  let act := specActivitySubscore snap
  let tr := specTrendSubscore snap
  let ha := specHypeAssess rawAI
  let hc := specHypeContribution ha.hypeScore
  let total := sec + act + tr + hc
  { tokenAddress := snap.address
    snapshot := snap
    subSecurity := sec
    subActivity := act
    subTrend := tr
    subHype := hc
    hype := ha
    totalScore := total
    verdict := if ha.verdict ≠ .ERROR then ha.verdict else verdictOfScore total }

/-!  Auxiliary definitions and shared lemmas used by the claim theorems. -/

/-- Whether a JSON value is an object carrying the given key. -/
def jHasKey (j : Json) (k : List Char) : Bool :=
  match j with
  | .jobj fs => (lookupField fs k).isSome
  | _ => false

/-- The fallback dictionary the claim about the hype assessor asserts
(stated from the claim's words, for comparison with what the source
returns). -/
def specClaimedFallback : Json :=
  .jobj [(chars "hypeScore", .jint 0),
         (chars "verdict", .jstr (chars "ERROR")),
         (chars "probability", .jint 0),
         (chars "summary", .jstr (chars "analysis failed"))]

/-- Whether a rendered page is the results page. -/
def isResultsPage : Rendered → Bool
  | .walletResultsPage _ _ _ => true
  | _ => false

/-- A markdown-fenced response around a payload, exactly as the reasoning
collaborator tends to produce it: ```json, newline, payload, newline, ```. -/
def fenceWrap (s : List Char) : List Char :=
  fenceJsonPat ++ ('\n' :: (s ++ ('\n' :: fencePat)))

/-- `raF` ignores its skip counter exactly as long as the skipped prefix. -/
theorem raF_skipL (pat rep : List Char) : ∀ (xs ys : List Char),
    raF pat rep xs.length (xs ++ ys).length (xs ++ ys) = raF pat rep 0 ys.length ys := by
  intro xs ys
  induction xs with
  | nil => rfl
  | cons a as ih =>
    simp only [List.cons_append, List.length_cons, raF]
    exact ih

/-- `str.replace` copies any block of characters that cannot start the
pattern. -/
theorem replaceAll_skip (p : Char) (pt rep : List Char) : ∀ (xs ys : List Char),
    (∀ c ∈ xs, c ≠ p) →
    replaceAll (p :: pt) rep (xs ++ ys) = xs ++ replaceAll (p :: pt) rep ys := by
  intro xs ys h
  induction xs with
  | nil => rfl
  | cons a as ih =>
    have ha : a ≠ p := h a (by simp)
    have hnp : ((p :: pt).isPrefixOf (a :: (as ++ ys))) = false := by
      simp [List.isPrefixOf]
      intro hpa
      exact absurd hpa.symm ha
    show raF (p :: pt) rep 0 ((a :: (as ++ ys)).length) (a :: (as ++ ys)) = _
    simp only [List.length_cons, raF, hnp]
    simp only [ne_eq, Bool.false_eq_true, and_false, if_false]
    exact congrArg (a :: ·) (ih (fun c hc => h c (List.mem_cons_of_mem a hc)))

/-- `str.replace` rewrites the pattern when it sits at the front. -/
theorem replaceAll_hit (p : Char) (pt rep : List Char) (ys : List Char) :
    replaceAll (p :: pt) rep ((p :: pt) ++ ys) = rep ++ replaceAll (p :: pt) rep ys := by
  have hpre : ((p :: pt).isPrefixOf ((p :: pt) ++ ys)) = true := by
    rw [ List.isPrefixOf_iff_prefix]
    exact ⟨ys, rfl⟩
  show raF (p :: pt) rep 0 ((p :: (pt ++ ys)).length) (p :: (pt ++ ys)) = _
  simp only [List.length_cons, raF]
  rw [if_pos]
  · simp only [List.length_cons, Nat.add_sub_cancel]
    have h2 := raF_skipL (p :: pt) rep pt ys
    rw [List.length_append]
    rw [List.length_append] at h2
    exact congrArg (rep ++ ·) h2
  · exact ⟨by simp, by simp [hpre]⟩

/-- `str.strip()` is the identity on text that starts and ends with a
backtick. -/
theorem pyStrip_wrap (xs : List Char) :
    pyStrip (btickC :: (xs ++ [btickC])) = btickC :: (xs ++ [btickC]) := by
  have hb : isPySpace btickC = false := by decide
  unfold pyStrip
  rw [List.dropWhile_cons_of_neg (by simp [hb])]
  rw [show (btickC :: (xs ++ [btickC])).reverse = btickC :: (xs.reverse ++ [btickC]) by
    simp]
  rw [List.dropWhile_cons_of_neg (by simp [hb])]
  simp

/-!  Claim theorems. -/

/-- C2 (counterexample): on the concrete response `Voici: {"a": 1}` the
source's cleaning step leaves the non-fence prefix in place, so the parse
fails, although a brace-delimited object is enclosed and would parse if the
first-`\x7b`/last-`\x7d` extraction the claim describes were performed. -/
theorem c2_counterexample :
    jsonLoads? (cleanedResponse (chars "Voici: " ++ lbraceC :: (chars "\"a\": 1" ++ [rbraceC]))) = none ∧
    (specExtractBraces (chars "Voici: " ++ lbraceC :: (chars "\"a\": 1" ++ [rbraceC]))).bind jsonLoads? =
      some (.jobj [(chars "a", .jint 1)]) :=
  ⟨rfl, rfl⟩

/-- C2 (amended): the parser tolerates markdown fencing not by locating
braces but by deleting the fence markers from the stripped response: for
every backtick-free payload `s`, cleaning the fenced response yields exactly
the payload framed by the fence's newlines. -/
theorem c2_amended_fence_tolerance (s : List Char) (h : ∀ c ∈ s, c ≠ btickC) :
    cleanedResponse (fenceWrap s) = '\n' :: (s ++ ['\n']) := by
  have hmem : ∀ c ∈ ('\n' :: s) ++ ['\n'], c ≠ btickC := by
    intro c hc
    rcases List.mem_append.1 hc with hc | hc
    · rcases List.mem_cons.1 hc with rfl | hc
      · decide
      · exact h c hc
    · rcases List.mem_cons.1 hc with rfl | hc
      · decide
      · simp at hc
  have hstrip : pyStrip (fenceWrap s) = fenceWrap s := by
    have hshape : fenceWrap s =
        btickC :: (((btickC :: btickC :: ['j', 's', 'o', 'n', '\n']) ++
          (s ++ ['\n', btickC, btickC])) ++ [btickC]) := by
      simp [fenceWrap, fenceJsonPat, fencePat]
    rw [hshape, pyStrip_wrap]
  have hsplit : '\n' :: (s ++ ('\n' :: fencePat)) = (('\n' :: s) ++ ['\n']) ++ fencePat := by
    simp
  unfold cleanedResponse
  rw [hstrip]
  show replaceAll fencePat []
      (replaceAll (btickC :: (btickC :: btickC :: ['j', 's', 'o', 'n']))
        [] ((btickC :: (btickC :: btickC :: ['j', 's', 'o', 'n'])) ++
          ('\n' :: (s ++ ('\n' :: fencePat))))) = _
  rw [replaceAll_hit, List.nil_append, hsplit, replaceAll_skip _ _ _ _ _ hmem]
  rw [show replaceAll (btickC :: (btickC :: btickC :: ['j', 's', 'o', 'n'])) [] fencePat
      = fencePat from by decide]
  show replaceAll (btickC :: [btickC, btickC]) [] _ = _
  rw [replaceAll_skip _ _ _ _ _ hmem]
  rw [show replaceAll (btickC :: [btickC, btickC]) [] fencePat = [] from by decide]
  simp

/-- C2 (witness): the fence-tolerance theorem applied to the concrete
payload `\x7b\x7d`. -/
theorem c2_amended_fence_tolerance_witness :
    cleanedResponse (fenceWrap [lbraceC, rbraceC]) = '\n' :: ([lbraceC, rbraceC] ++ ['\n']) :=
  c2_amended_fence_tolerance [lbraceC, rbraceC] (by decide)

/-- C1 (counterexample): when the collaborator returns the unparseable text
`pas de json`, `analyze_wallet` returns its error dictionary (keys `error`
and `summary`), not the claimed fixed fallback assessment
(hypeScore=0, verdict=ERROR, probability=0, summary="analysis failed"). -/
theorem c1_counterexample :
    analyze_wallet (some fun _ => .ok (chars "pas de json")) [] = .ok (aiErrDict jsonErrText) ∧
    analyze_wallet (some fun _ => .ok (chars "pas de json")) [] ≠ .ok specClaimedFallback := by
  constructor
  · rfl
  · intro hcl
    have h1 : (Except.ok (aiErrDict jsonErrText) : Except (List Char) Json) =
        .ok specClaimedFallback := hcl
    have h2 : aiErrDict jsonErrText = specClaimedFallback := by
      injection h1
    have h3 := congrArg (fun j => jHasKey j (chars "hypeScore")) h2
    exact Bool.noConfusion (h3 : false = true)

/-- C1 (amended): for every collaborator outcome reached with a configured
model, `analyze_wallet` never lets a generation or parse failure escape: a
generation exception yields the fixed error dictionary with the exception
text as `summary`; a response whose cleaned text does not parse as JSON
yields the fixed error dictionary with the decode-error text; a response
that parses is returned as-is (no key validation is performed). -/
theorem c1_amended_fallback (g : GenModel) (txs simples : List Json) (text e : List Char)
    (hs : txs.mapM simplifyTx = .ok simples) :
    (g (promptText (dumps (.jarr simples))) = .exn e →
      analyze_wallet (some g) txs = .ok (aiErrDict e)) ∧
    (g (promptText (dumps (.jarr simples))) = .ok text →
      jsonLoads? (cleanedResponse text) = none →
      analyze_wallet (some g) txs = .ok (aiErrDict jsonErrText)) ∧
    (∀ j, g (promptText (dumps (.jarr simples))) = .ok text →
      jsonLoads? (cleanedResponse text) = some j →
      analyze_wallet (some g) txs = .ok j) := by
  refine ⟨?_, ?_, ?_⟩
  · intro hg
    simp only [analyze_wallet, hs, hg]
  · intro hg hj
    simp only [analyze_wallet, hs, hg, hj]
  · intro j hg hj
    simp only [analyze_wallet, hs, hg, hj]

/-- C1 (witness): the amended theorem applied at the concrete unparseable
response `pas de json` with an empty transaction list. -/
theorem c1_amended_fallback_witness :
    analyze_wallet (some fun _ => .ok (chars "pas de json")) [] = .ok (aiErrDict jsonErrText) :=
  (c1_amended_fallback (fun _ => .ok (chars "pas de json")) [] []
      (chars "pas de json") [] rfl).2.1 rfl (by rfl)

/-- C5 (counterexample): a provider timeout — the Birdeye fetch returning
`([], "timed out")` — terminates the request early with the error page, so a
failed upstream signal other than a missing token identity does not degrade
gracefully into a complete result. -/
theorem c5_counterexample :
    wallet_analyzer .post (some (chars "WalletX"))
        (fun _ => ([], some (chars "timed out"))) none =
      (.walletAnalyzerPage
        (some (chars "Impossible de récupérer les transactions : timed out")),
       [.birdeye (chars "WalletX")]) ∧
    isResultsPage (wallet_analyzer .post (some (chars "WalletX"))
        (fun _ => ([], some (chars "timed out"))) none).1 = false :=
  ⟨rfl, rfl⟩

/-- C5 (amended): besides a blank wallet address, a truthy fetch error or an
empty transaction list also terminates the POST request early with the error
page; only a reasoning-collaborator failure degrades gracefully — whenever
`analyze_wallet` returns a dictionary (which it does for every generation or
parse failure), the results page is still rendered with it. -/
theorem c5_amended_early_abort (form : Option (List Char))
    (fetch : List Char → List Json × Option (List Char)) (m : Option GenModel)
    (txs : List Json) (err : Option (List Char))
    (hne : pyStrip (form.getD []) ≠ [])
    (hf : fetch (pyStrip (form.getD [])) = (txs, err)) :
    ((errTruthy err || txs.isEmpty) = true →
      wallet_analyzer .post form fetch m =
        (.walletAnalyzerPage (some (fetchErrMsg err)),
         [.birdeye (pyStrip (form.getD []))])) ∧
    ((errTruthy err || txs.isEmpty) = false →
      ∀ d, analyze_wallet m txs = .ok d →
        wallet_analyzer .post form fetch m =
          (.walletResultsPage d (pyStrip (form.getD [])) txs,
           [.birdeye (pyStrip (form.getD [])), .aiService])) := by
  constructor
  · intro hb
    simp only [wallet_analyzer, hne, hf, hb, if_true, if_false]
  · intro hb d hd
    simp only [wallet_analyzer, hne, hf, hb, Bool.false_eq_true, if_true, if_false, hd]

/-- C5 (witness): the amended theorem applied at a concrete timeout. -/
theorem c5_amended_early_abort_witness :
    wallet_analyzer .post (some (chars "W")) (fun _ => ([], some (chars "timeout"))) none =
      (.walletAnalyzerPage (some (fetchErrMsg (some (chars "timeout")))),
       [.birdeye (pyStrip ((some (chars "W")).getD []))]) :=
  (c5_amended_early_abort (some (chars "W")) (fun _ => ([], some (chars "timeout"))) none
      [] (some (chars "timeout")) (by decide) rfl).1 rfl

/-- C8: a POST whose wallet form field is absent, empty, or whitespace-only
is answered with the required-address error page and performs no external
call at all, whatever the fetch collaborator and model handle are. -/
theorem c8_blank_wallet_no_calls (form : Option (List Char))
    (fetch : List Char → List Json × Option (List Char)) (m : Option GenModel)
    (h : pyStrip (form.getD []) = []) :
    wallet_analyzer .post form fetch m =
      (.walletAnalyzerPage (some (chars "L\x27adresse du wallet est requise.")), []) := by
  simp only [wallet_analyzer, h, if_true]

/-- C8 (witness): the theorem applied to a whitespace-only wallet field. -/
theorem c8_blank_wallet_no_calls_witness :
    wallet_analyzer .post (some (chars "   ")) (fun _ => ([], none)) none =
      (.walletAnalyzerPage (some (chars "L\x27adresse du wallet est requise.")), []) :=
  c8_blank_wallet_no_calls (some (chars "   ")) (fun _ => ([], none)) none (by decide)

/-- C9: with an unconfigured model handle, `analyze_wallet` returns the
fixed configuration-error dictionary — which carries exactly the keys
`error` and `summary` — for every transaction list, and (the handle being
`None`) no reasoning collaborator exists to be invoked. -/
theorem c9_unconfigured_model (txs : List Json) :
    analyze_wallet none txs = .ok configErrDict ∧
    jHasKey configErrDict (chars "error") = true ∧
    jHasKey configErrDict (chars "summary") = true ∧
    jHasKey configErrDict (chars "hypeScore") = false :=
  ⟨rfl, rfl, rfl, rfl⟩

/-- C7: `analyze_wallet` is a pure function of the model handle and the
transaction list — in the embedding the reasoning collaborator is an
explicit (mockable) function argument, so two invocations on byte-identical
inputs return identical results. -/
theorem c7_deterministic (m : Option GenModel) (txs1 txs2 : List Json)
    (h : txs1 = txs2) :
    analyze_wallet m txs1 = analyze_wallet m txs2 := by
  rw [h]

/-- C7 (witness): two runs on the same concrete mocked collaborator and the
same concrete transaction list coincide. -/
theorem c7_deterministic_witness :
    analyze_wallet (some fun _ => .ok (chars "x")) [.jobj []] =
      analyze_wallet (some fun _ => .ok (chars "x")) [.jobj []] :=
  c7_deterministic (some fun _ => .ok (chars "x")) [.jobj []] [.jobj []] rfl

/-- C6: whenever Python float coercion of the supplied value fails (the
`ValueError`/`TypeError` the filters catch), each of the three formatting
filters returns the neutral default `N/A` instead of letting the exception
propagate. -/
theorem c6_numeric_coercion_safe (v : PyVal) (h : pyFloat? v = none) :
    format_price v = chars "N/A" ∧
    format_market_cap v = chars "N/A" ∧
    format_pnl v = chars "N/A" := by
  refine ⟨?_, ?_, ?_⟩ <;> simp only [format_price, format_market_cap, format_pnl, h]

/-- C6 (witness): the theorem applied to the non-numeric string `abc`. -/
theorem c6_numeric_coercion_safe_witness :
    format_price (.vStr (chars "abc")) = chars "N/A" ∧
    format_market_cap (.vStr (chars "abc")) = chars "N/A" ∧
    format_pnl (.vStr (chars "abc")) = chars "N/A" :=
  c6_numeric_coercion_safe (.vStr (chars "abc")) (by decide)

/-- C10: `format_market_cap` returns `N/A` exactly on a coerced value of
zero (every falsy coercible input coerces to 0), and scales every value at
or above 10^9 / 10^6 / 10^3 with the B / M / K suffix respectively,
rendering smaller positive values as a plain dollar amount. -/
theorem c10_market_cap_banding (v : PyVal) (q : Rat) (h : pyFloat? v = some q) :
    (q = 0 → format_market_cap v = chars "N/A") ∧
    (1000000000 ≤ q → format_market_cap v = '$' :: fmtFixed q 1000000000 2 false ++ ['B']) ∧
    (1000000 ≤ q ∧ q < 1000000000 →
      format_market_cap v = '$' :: fmtFixed q 1000000 2 false ++ ['M']) ∧
    (1000 ≤ q ∧ q < 1000000 →
      format_market_cap v = '$' :: fmtFixed q 1000 2 false ++ ['K']) ∧
    (0 < q ∧ q < 1000 → format_market_cap v = '$' :: fmtFixed q 1 2 true) := by
  refine ⟨?_, ?_, ?_, ?_, ?_⟩
  · intro h0
    simp only [format_market_cap, h, h0, if_true]
  · intro hge
    have h0 : ¬ q = 0 := by intro h0; rw [h0] at hge; norm_num at hge
    simp only [format_market_cap, h, h0, if_false, ge_iff_le, hge, if_true]
  · rintro ⟨hge, hlt⟩
    have h0 : ¬ q = 0 := by intro h0; rw [h0] at hge; norm_num at hge
    have hn9 : ¬ (1000000000 : Rat) ≤ q := not_le.2 hlt
    simp only [format_market_cap, h, h0, if_false, ge_iff_le, hn9, hge, if_true]
  · rintro ⟨hge, hlt⟩
    have h0 : ¬ q = 0 := by intro h0; rw [h0] at hge; norm_num at hge
    have hn9 : ¬ (1000000000 : Rat) ≤ q := not_le.2 (hlt.trans (by norm_num))
    have hn6 : ¬ (1000000 : Rat) ≤ q := not_le.2 hlt
    simp only [format_market_cap, h, h0, if_false, ge_iff_le, hn9, hn6, hge, if_true]
  · rintro ⟨hpos, hlt⟩
    have h0 : ¬ q = 0 := ne_of_gt hpos
    have hn9 : ¬ (1000000000 : Rat) ≤ q := not_le.2 (hlt.trans (by norm_num))
    have hn6 : ¬ (1000000 : Rat) ≤ q := not_le.2 (hlt.trans (by norm_num))
    have hn3 : ¬ (1000 : Rat) ≤ q := not_le.2 hlt
    simp only [format_market_cap, h, h0, if_false, ge_iff_le, hn9, hn6, hn3, if_true]

/-- C10 (witness): the banding theorem applied at 2.5 billion evaluates to
the scaled `$2.50B`. -/
theorem c10_market_cap_banding_witness :
    format_market_cap (.vNum 2500000000) = chars "$2.50B" := by
  have hB := (c10_market_cap_banding (.vNum 2500000000) 2500000000 rfl).2.1 (by decide)
  rw [hB]
  decide

/-- Every penalty constant is non-negative. -/
theorem findingPenalty_nonneg (f : List Char) : 0 ≤ findingPenalty f := by
  unfold findingPenalty
  split <;> norm_num
  split <;> norm_num
  split <;> norm_num

/-- The security subscore is bounded by its 0-40 band. -/
theorem specSecuritySubscore_bounds (r : Option (List (List Char))) :
    0 ≤ specSecuritySubscore r ∧ specSecuritySubscore r ≤ 40 := by
  cases r with
  | none => exact ⟨le_refl 0, by norm_num [specSecuritySubscore]⟩
  | some findings =>
    have hsum : 0 ≤ (findings.map findingPenalty).sum := by
      apply List.sum_nonneg
      intro x hx
      rcases List.mem_map.1 hx with ⟨f, _, rfl⟩
      exact findingPenalty_nonneg f
    constructor
    · exact le_max_left 0 _
    · apply max_le (by norm_num)
      omega

/-- The activity subscore is bounded by its 0-30 band. -/
theorem specActivitySubscore_bounds (s : TokenSnapshot) :
    0 ≤ specActivitySubscore s ∧ specActivitySubscore s ≤ 30 := by
  unfold specActivitySubscore
  constructor
  · apply le_min (by norm_num)
    split <;> split <;> norm_num
  · exact min_le_left _ _

/-- The trend subscore is bounded by its 0-10 band. -/
theorem specTrendSubscore_bounds (s : TokenSnapshot) :
    0 ≤ specTrendSubscore s ∧ specTrendSubscore s ≤ 10 := by
  unfold specTrendSubscore
  split <;> norm_num

/-- A decoded contract always carries a hype score within 0-100. -/
theorem decodeContract_hypeScore_le (j : Json) (a : HypeAssessment)
    (h : decodeContract j = some a) : a.hypeScore ≤ 100 := by
  unfold decodeContract at h
  split at h
  · split at h
    · split at h
      · split at h
        · rename_i hcond
          cases h
          simp only
          omega
        · exact Option.noConfusion h
      · exact Option.noConfusion h
    · exact Option.noConfusion h
  · exact Option.noConfusion h

/-- The hype assessor never emits a score above 100 (contract validation or
fallback). -/
theorem specHypeAssess_hypeScore_le (raw : List Char) :
    (specHypeAssess raw).hypeScore ≤ 100 := by
  unfold specHypeAssess
  split
  · rename_i j _
    cases hd : decodeContract j with
    | none => simp [hd, fallbackAssessment]
    | some a => simpa [hd] using decodeContract_hypeScore_le j a hd
  · simp [fallbackAssessment]

/-- The hype contribution is bounded by its 0-20 band whenever the hype
score respects its 0-100 contract. -/
theorem specHypeContribution_bounds (h : Nat) (hle : h ≤ 100) :
    0 ≤ specHypeContribution h ∧ specHypeContribution h ≤ 20 := by
  unfold specHypeContribution
  constructor
  · exact Int.ofNat_nonneg _
  · have : (2 * h + 5) / 10 ≤ 20 := by
      have : 2 * h + 5 ≤ 205 := by omega
      calc (2 * h + 5) / 10 ≤ 205 / 10 := Nat.div_le_div_right this
        _ = 20 := by norm_num
    exact_mod_cast this

/-- C3: for every combination of inputs the analysis total equals the exact
sum of the four dimension subscores, each subscore stays inside its band
(0-40, 0-30, 0-10, 0-20), and the total lies in [0, 100]. -/
theorem c3_total_score_invariant (snap : TokenSnapshot)
    (report : Option (List (List Char))) (rawAI : List Char) :
    (specAnalyze snap report rawAI).totalScore =
      (specAnalyze snap report rawAI).subSecurity +
      (specAnalyze snap report rawAI).subActivity +
      (specAnalyze snap report rawAI).subTrend +
      (specAnalyze snap report rawAI).subHype ∧
    0 ≤ (specAnalyze snap report rawAI).totalScore ∧
    (specAnalyze snap report rawAI).totalScore ≤ 100 ∧
    0 ≤ (specAnalyze snap report rawAI).subSecurity ∧
    (specAnalyze snap report rawAI).subSecurity ≤ 40 ∧
    0 ≤ (specAnalyze snap report rawAI).subActivity ∧
    (specAnalyze snap report rawAI).subActivity ≤ 30 ∧
    0 ≤ (specAnalyze snap report rawAI).subTrend ∧
    (specAnalyze snap report rawAI).subTrend ≤ 10 ∧
    0 ≤ (specAnalyze snap report rawAI).subHype ∧
    (specAnalyze snap report rawAI).subHype ≤ 20 := by
  obtain ⟨hs1, hs2⟩ := specSecuritySubscore_bounds report
  obtain ⟨ha1, ha2⟩ := specActivitySubscore_bounds snap
  obtain ⟨ht1, ht2⟩ := specTrendSubscore_bounds snap
  obtain ⟨hh1, hh2⟩ := specHypeContribution_bounds (specHypeAssess rawAI).hypeScore
    (specHypeAssess_hypeScore_le rawAI)
  refine ⟨rfl, ?_, ?_, hs1, hs2, ha1, ha2, ht1, ht2, hh1, hh2⟩ <;>
    simp only [specAnalyze] <;> omega

/-- C4: an absent (unfetchable) risk report scores the conservative default
0, while a fetched report with zero findings scores the full 40-point cap. -/
theorem c4_security_defaults :
    specSecuritySubscore none = 0 ∧ specSecuritySubscore (some []) = 40 := by
  constructor
  · rfl
  · norm_num [specSecuritySubscore]

example : specHypeAssess (chars "bruit " ++ lbraceC ::
    (chars "\"hype_score\": 80, \"final_verdict\": \"POTENTIAL_BUY\", \"probability\": 70, \"summary\": \"momentum\""
      ++ [rbraceC, '!'])) =
    { hypeScore := 80, verdict := .POTENTIAL_BUY, probability := 70,
      summary := chars "momentum" } := by rfl

example : specHypeAssess (chars "pas de json") = fallbackAssessment := by rfl

example : specHypeContribution 80 = 16 := by rfl

example : specSecuritySubscore (some [chars "Mutable Metadata"]) = 30 := by
  norm_num [specSecuritySubscore, findingPenalty]
